import Mathlib

/-!
# Verification of the Argos CTI configuration tree (`libargos/config/qtctis.py`)

Shallow embedding of the typed config-tree-item (CTI) leaf variants:
`ColorCti`, `FontCti`, `PenCti` and the helper factories
`createPenStyleCti` / `createPenWidthCti`.

The decisive code lives in `src/libargos/config/qtctis.py`.  The abstract
base classes (`AbstractCti`, `ChoiceCti`, `FloatCti`, `BoolCti`) live in
repository files that are not available, so their small, load-bearing
behaviours (data setters enforcing the type before assignment,
`configValue` returning the stored/selected value) are modelled from the
spec, each marked `Modelled from the spec:` in its doc comment.  Qt types
(`QColor`, `QFont`, `QPen`) are external collaborators and are modelled by
plain records with the operations the source uses.

Floating point widths are modelled by `ℚ`; the source only ever compares
widths for exact equality against literal constants (0.0, 0.1, 100).
-/

namespace Argos

/-! ## Qt value types (external collaborators, modelled) -/

/-- The Qt pen line styles used by `PEN_STYLE_CONFIG_VALUES`
(`Qt.SolidLine`, `Qt.DashLine`, `Qt.DotLine`, `Qt.DashDotLine`,
`Qt.DashDotDotLine`). -/
inductive PenStyle : Type where
  | SolidLine
  | DashLine
  | DotLine
  | DashDotLine
  | DashDotDotLine
deriving DecidableEq, Repr

/-- A Qt RGB color.  String color specifications accepted by `QColor` carry
no alpha channel, so an RGB triple suffices. -/
structure QColor : Type where
  r : Nat
  g : Nat
  b : Nat
deriving DecidableEq, Repr

/-- The color channels are byte values. -/
def QColor.valid (c : QColor) : Prop :=
  c.r < 256 ∧ c.g < 256 ∧ c.b < 256

instance (c : QColor) : Decidable c.valid := by
  unfold QColor.valid; infer_instance

/-- Lowercase hexadecimal digit character for `n < 16` (as produced by
`QColor.name()`); larger arguments are clamped to `f`.  Codepoint 48 is
`0`, codepoint 87 + 10 is `a`. -/
def hexDigitChar (n : Nat) : Char :=
  if min n 15 < 10 then Char.ofNat (48 + min n 15)
  else Char.ofNat (87 + min n 15)

/-- Value of a hexadecimal digit character, case-insensitive (as accepted
by `QColor("#RRGGBB")`).  Codepoint ranges: 48-57 are `0`-`9`, 97-102 are
`a`-`f`, 65-70 are `A`-`F`. -/
def hexDigitVal (c : Char) : Option Nat :=
  if 48 ≤ c.toNat ∧ c.toNat ≤ 57 then some (c.toNat - 48)
  else if 97 ≤ c.toNat ∧ c.toNat ≤ 102 then some (c.toNat - 87)
  else if 65 ≤ c.toNat ∧ c.toNat ≤ 70 then some (c.toNat - 55)
  else none

/-- `QColor.name()`: the canonical `#rrggbb` string, lowercase hex with a
leading `#`. -/
def QColor.name (c : QColor) : String :=
  String.mk ['#',
    hexDigitChar (c.r / 16), hexDigitChar (c.r % 16),
    hexDigitChar (c.g / 16), hexDigitChar (c.g % 16),
    hexDigitChar (c.b / 16), hexDigitChar (c.b % 16)]

/-- Parse a `#RRGGBB` hex color string (case-insensitive digits). -/
def parseHexColor (s : String) : Option QColor :=
  match s.toList with
  | ['#', r1, r2, g1, g2, b1, b2] => do
    let rh ← hexDigitVal r1
    let rl ← hexDigitVal r2
    let gh ← hexDigitVal g1
    let gl ← hexDigitVal g2
    let bh ← hexDigitVal b1
    let bl ← hexDigitVal b2
    pure ⟨rh * 16 + rl, gh * 16 + gl, bh * 16 + bl⟩
  | _ => none

/-- A few of the SVG color names `QColor` recognizes; representative subset
of the external color-name table. -/
def namedColors : List (String × QColor) :=
  [("black", ⟨0, 0, 0⟩), ("white", ⟨255, 255, 255⟩),
   ("red", ⟨255, 0, 0⟩), ("green", ⟨0, 128, 0⟩), ("blue", ⟨0, 0, 255⟩)]

/-- `QtGui.QColor(string)`: a recognized specification is a `#RRGGBB` hex
string or a known color name; anything else yields an invalid color
(`none`). -/
def colorFromString (s : String) : Option QColor :=
  match parseHexColor s with
  | some c => some c
  | none => namedColors.lookup s

/-- A Qt pen, as far as the source manipulates it: cosmetic flag, color,
line style and width (`widthF`). -/
structure QPen : Type where
  cosmetic : Bool
  color : QColor
  style : PenStyle
  width : ℚ
deriving DecidableEq, Repr

/-- `QtGui.QPen()`: the default pen is a black solid line of width 1,
not cosmetic (as the source's own doc comment states). -/
def QPen.default : QPen :=
  { cosmetic := false, color := ⟨0, 0, 0⟩, style := .SolidLine, width := 1 }

/-! ## ColorCti -/

/-- A `ColorCti` node: `data` and `defaultData` are validated colors.
Modelled from the spec: the `nodeName` / `data` / `defaultData` slots come
from `AbstractCti` (not under src/). -/
structure ColorCti : Type where
  nodeName : String
  data : QColor
  defaultData : QColor
deriving DecidableEq, Repr

/-- `ColorCti._enforceDataType`: parse the input with `QtGui.QColor`;
raise `ValueError("Invalid color specification: ...")` when invalid. -/
def ColorCti.enforceDataType (s : String) : Except String QColor :=
  match colorFromString s with
  | some c => .ok c
  | none => .error ("Invalid color specification: " ++ s)

/-- Modelled from the spec: the `AbstractCti.data` setter (abstractcti.py,
not under src/) runs `_enforceDataType` before assigning, so a failing
enforcement leaves the node untouched. -/
def ColorCti.setData (cti : ColorCti) (s : String) : Except String ColorCti :=
  (ColorCti.enforceDataType s).map fun c => { cti with data := c }

/-- `ColorCti._dataToString`: display form, `data.name().upper()`. -/
def ColorCti.dataToString (data : QColor) : String :=
  data.name.toUpper

/-- `ColorCti._nodeGetNonDefaultsDict`: the node's persistence dictionary;
`some s` models `{'data': s}` and `none` models the empty dict.  The stored
string is `self.data.name()` (no `.upper()` here). -/
def ColorCti.nodeGetNonDefaultsDict (cti : ColorCti) : Option String :=
  if cti.data ≠ cti.defaultData then some cti.data.name else none

/-- `ColorCti._nodeSetValuesFromDict`: when the dict has a `'data'` entry,
assign `QtGui.QColor(dct['data'])` through the data setter; otherwise do
nothing. -/
def ColorCti.nodeSetValuesFromDict (dct : Option String) (cti : ColorCti) :
    Except String ColorCti :=
  match dct with
  | none => .ok cti
  | some s => cti.setData s

/-! ## Pen style and width children -/

/-- `PEN_STYLE_CONFIG_VALUES` from the source. -/
def PEN_STYLE_CONFIG_VALUES : List PenStyle :=
  [.SolidLine, .DashLine, .DotLine, .DashDotLine, .DashDotDotLine]

/-- `PEN_STYLE_DISPLAY_VALUES` from the source. -/
def PEN_STYLE_DISPLAY_VALUES : List String :=
  ["solid", "dashed", "dotted", "dash-dot", "dash-dot-dot"]

/-- The pen-style `ChoiceCti`: `data` is the selected index into
`configValues`; a `none` entry is the "none" sentinel prepended when
`includeNone` is set.  Modelled from the spec: `ChoiceCti`
(choicecti.py, not under src/) stores display/config value lists and a
selected index. -/
structure PenStyleChoiceCti : Type where
  nodeName : String
  data : Nat
  defaultData : Nat
  displayValues : List String
  configValues : List (Option PenStyle)
deriving DecidableEq, Repr

/-- Modelled from the spec: `ChoiceCti.configValue` returns the config
value at the selected index (`configValues[self.data]`; out-of-range
indices never occur on constructed nodes and are mapped to the sentinel). -/
def PenStyleChoiceCti.configValue (c : PenStyleChoiceCti) : Option PenStyle :=
  (c.configValues.get? c.data).join

/-- The selected index is within the option list. -/
def PenStyleChoiceCti.WF (c : PenStyleChoiceCti) : Prop :=
  c.data < c.configValues.length

instance (c : PenStyleChoiceCti) : Decidable c.WF := by
  unfold PenStyleChoiceCti.WF; infer_instance

/-- `createPenStyleCti`: a `ChoiceCti` with the Qt pen styles; when
`includeNone` is set, the first option is the `None` sentinel. -/
def createPenStyleCti (nodeName : String) (defaultData : Nat)
    (includeNone : Bool) : PenStyleChoiceCti :=
  let displayValues :=
    if includeNone then "" :: PEN_STYLE_DISPLAY_VALUES else PEN_STYLE_DISPLAY_VALUES
  let configValues :=
    if includeNone then none :: PEN_STYLE_CONFIG_VALUES.map some
    else PEN_STYLE_CONFIG_VALUES.map some
  { nodeName := nodeName, data := defaultData, defaultData := defaultData,
    displayValues := displayValues, configValues := configValues }

/-- A `FloatCti` node.  Modelled from the spec: `FloatCti`
(floatcti.py, not under src/) stores the value, default, bounds, step size,
decimals and the optional special text shown at the minimum. -/
structure FloatCti : Type where
  nodeName : String
  data : ℚ
  defaultData : ℚ
  minValue : ℚ
  maxValue : ℚ
  stepSize : ℚ
  decimals : Nat
  specialValueText : Option String
deriving DecidableEq, Repr

/-- Modelled from the spec: `FloatCti.configValue` is the stored value. -/
def FloatCti.configValue (c : FloatCti) : ℚ := c.data

/-- `createPenWidthCti`: a `FloatCti` for a pen width; minimum 0.1 when no
`zeroValueText` is given, else 0.0; maximum 100, step size 0.1,
1 decimal. -/
def createPenWidthCti (nodeName : String) (defaultData : ℚ)
    (zeroValueText : Option String) : FloatCti :=
  { nodeName := nodeName, data := defaultData, defaultData := defaultData,
    minValue := if zeroValueText = none then 1/10 else 0,
    maxValue := 100, stepSize := 1/10, decimals := 1,
    specialValueText := zeroValueText }

/-! ## PenCti -/

/-- A `PenCti` node.  It extends `BoolCti`: its own `data` is the boolean
enabled flag (modelled from the spec: `BoolCti`, boolcti.py, is not under
src/).  The pen itself is derived from the three children inserted by the
constructor: `colorCti`, `styleCti` and `widthCti` (node names `color`,
`style`, `width`, so `findByNodePath('style')` resolves to `styleCti` and
`findByNodePath('width')` to `widthCti`). -/
structure PenCti : Type where
  nodeName : String
  data : Bool
  defaultData : Bool
  colorCti : ColorCti
  styleCti : PenStyleChoiceCti
  widthCti : FloatCti
deriving DecidableEq, Repr

/-- The style child's selected index is in range (true of every node the
constructor builds). -/
def PenCti.WF (p : PenCti) : Prop := p.styleCti.WF

instance (p : PenCti) : Decidable p.WF := by
  unfold PenCti.WF; infer_instance

/-- The `PenCti` constructor: seeds the three children's defaults from the
`resetTo` pen.  The style child's default index is the index of the pen's
style in `PEN_STYLE_CONFIG_VALUES`, shifted by one when the `None` sentinel
is prepended. -/
def PenCti.make (nodeName : String) (defaultData : Bool) (resetTo : QPen)
    (includeNoneStyle : Bool) (includeZeroWidth : Bool) : PenCti :=
  let qPen := resetTo
  let defaultIndex :=
    PEN_STYLE_CONFIG_VALUES.indexOf qPen.style + (if includeNoneStyle then 1 else 0)
  { nodeName := nodeName, data := defaultData, defaultData := defaultData,
    colorCti := { nodeName := "color", data := qPen.color, defaultData := qPen.color },
    styleCti := createPenStyleCti "style" defaultIndex includeNoneStyle,
    widthCti := createPenWidthCti "width" qPen.width
      (if includeZeroWidth then some " " else none) }

/-- `PenCti.configValue`: `None` when the enabled flag is false; otherwise
a fresh `QPen` made cosmetic, colored from the color child, styled from the
style child unless that resolves to the `None` sentinel (the default
solid style is then kept), with the width child's width. -/
def PenCti.configValue (p : PenCti) : Option QPen :=
  if p.data = false then none
  else
    let pen := QPen.default
    let pen := { pen with cosmetic := true }
    let pen := { pen with color := p.colorCti.data }
    let pen :=
      match p.styleCti.configValue with
      | some style => { pen with style := style }
      | none => pen
    let pen := { pen with width := p.widthCti.configValue }
    some pen

/-- `PenCti.createPen`: `configValue`, but with the style overridden by
`altStyle` when the style child resolves to the `None` sentinel, and the
width overridden by `altWidth` when the width child's value is exactly
0.0. -/
def PenCti.createPen (p : PenCti) (altStyle : Option PenStyle)
    (altWidth : Option ℚ) : Option QPen :=
  match p.configValue with
  | none => none
  | some pen =>
    let style := p.styleCti.configValue
    let pen :=
      match style, altStyle with
      | none, some alt => { pen with style := alt }
      | _, _ => pen
    let width := p.widthCti.configValue
    let pen :=
      match altWidth with
      | some alt => if width = 0 then { pen with width := alt } else pen
      | none => pen
    some pen

/-! ## FontCti -/

/-- A Qt font, in the shape of the spec's canonical font-description
string: family, point size, weight and italic flag. -/
structure QFont : Type where
  family : String
  pointSize : Int
  weight : Int
  italic : Bool
deriving DecidableEq, Repr

/-- Modelled from the spec: `QtGui.QFont()`, the environment's default
font (the "system default family" the spec mentions). -/
def QFont.default : QFont :=
  { family := "Sans Serif", pointSize := 9, weight := 50, italic := false }

/-- `QFont.toString()`: the canonical font-description string
`family;pointsize;weight;italic-flag`. -/
def QFont.toDescription (f : QFont) : String :=
  f.family ++ ";" ++ toString f.pointSize ++ ";" ++ toString f.weight
    ++ ";" ++ (if f.italic then "1" else "0")

/-- Split a character list at semicolons (the separator of the canonical
font-description form). -/
def splitSemi (l : List Char) : List (List Char) :=
  match l with
  | [] => [[]]
  | c :: rest =>
    if c = ';' then [] :: splitSemi rest
    else
      match splitSemi rest with
      | [] => [[c]]
      | hd :: tl => (c :: hd) :: tl

/-- Parse a nonempty decimal digit sequence. -/
def decDigitsVal (l : List Char) (acc : Nat) : Option Nat :=
  match l with
  | [] => some acc
  | c :: rest =>
    if '0' ≤ c ∧ c ≤ '9' then decDigitsVal rest (acc * 10 + (c.toNat - '0'.toNat))
    else none

/-- Parse a decimal natural number. -/
def parseNat? (l : List Char) : Option Nat :=
  match l with
  | [] => none
  | _ => decDigitsVal l 0

/-- Parse a decimal integer with an optional leading minus sign. -/
def parseInt? (l : List Char) : Option Int :=
  match l with
  | '-' :: rest => (parseNat? rest).map fun n => -(n : Int)
  | _ => (parseNat? l).map fun n => (n : Int)

/-- `QFont.fromString(s)` applied to the font `start`: parses the
canonical description form (a bare family name, or
`family;pointsize;weight;italic-flag`).  Returns the success flag and the
resulting font; on failure the font is left unmodified. -/
def QFont.fromDescription (start : QFont) (s : String) : Bool × QFont :=
  match splitSemi s.toList with
  | [fam] => (true, { start with family := String.mk fam })
  | [fam, ps, w, ital] =>
    match parseInt? ps, parseInt? w, ital with
    | some psv, some wv, ['0'] =>
      (true, { family := String.mk fam, pointSize := psv, weight := wv,
               italic := false })
    | some psv, some wv, ['1'] =>
      (true, { family := String.mk fam, pointSize := psv, weight := wv,
               italic := true })
    | _, _, _ => (false, start)
  | _ => (false, start)

/-- The family `ChoiceCti` child of a `FontCti` (`self.familyCti`): the
option list is the empty choice followed by the enumerated font families.
Modelled from the spec: `ChoiceCti` (choicecti.py, not under src/) stores
the option list and selected index. -/
structure FontChoiceCti : Type where
  nodeName : String
  data : Nat
  defaultData : Nat
  configValues : List String
deriving DecidableEq, Repr

/-- Modelled from the spec: `ChoiceCti.configValue` is the option at the
selected index (out-of-range indices never occur on constructed nodes). -/
def FontChoiceCti.configValue (c : FontChoiceCti) : String :=
  c.configValues.getD c.data ""

/-- A `FontCti` node: a font `data`/`defaultData` pair plus the family
choice child.  The external target widget is not part of the state; the
font pushed onto it is returned by `updateTargetFromNode`. -/
structure FontCti : Type where
  nodeName : String
  data : QFont
  defaultData : QFont
  familyCti : FontChoiceCti
deriving DecidableEq, Repr

/-- The constructor seeds `familyCti.configValues` with
`[''] + QFontDatabase().families()`, so the empty choice is always
present.  Nodes with this property are well-formed. -/
def FontCti.WF (f : FontCti) : Prop :=
  "" ∈ f.familyCti.configValues

instance (f : FontCti) : Decidable f.WF := by
  unfold FontCti.WF; infer_instance

/-- The `FontCti.data` setter: enforce the type (a `QFont` copy), then
re-derive the family child's selected index by exact match of the font's
family in the option list; if absent, log a warning (second component
`true`) and fall back to the index of the empty choice.  `.error` models
the `ValueError` Python's `list.index` would raise were the empty choice
missing. -/
def FontCti.setData (f : FontCti) (newData : QFont) :
    Except String (FontCti × Bool) :=
  match f.familyCti.configValues.indexOf? newData.family with
  | some idx =>
    .ok ({ f with data := newData, familyCti := { f.familyCti with data := idx } }, false)
  | none =>
    match f.familyCti.configValues.indexOf? "" with
    | some idx =>
      .ok ({ f with data := newData, familyCti := { f.familyCti with data := idx } }, true)
    | none => .error "ValueError: substring not found"

/-- The `FontCti.defaultData` setter: same re-derivation as the `data`
setter, targeting `defaultData` and the family child's default index. -/
def FontCti.setDefaultData (f : FontCti) (newDefault : QFont) :
    Except String (FontCti × Bool) :=
  match f.familyCti.configValues.indexOf? newDefault.family with
  | some idx =>
    .ok ({ f with defaultData := newDefault, familyCti := { f.familyCti with defaultData := idx } }, false)
  | none =>
    match f.familyCti.configValues.indexOf? "" with
    | some idx =>
      .ok ({ f with defaultData := newDefault, familyCti := { f.familyCti with defaultData := idx } }, true)
    | none => .error "ValueError: substring not found"

/-- `FontCti._updateTargetFromNode`: `font = self.data` (an alias of the
stored `QFont`, no copy), override its family with the family child's
selection or, when that choice is empty, the environment default family,
then push it to the target.  Returns the font given to
`targetWidget.setFont` and the node afterwards: since `setFamily` mutates
the aliased font, the node's own `data` also receives the new family. -/
def FontCti.updateTargetFromNode (f : FontCti) : QFont × FontCti :=
  let fam :=
    if f.familyCti.configValue ≠ "" then f.familyCti.configValue
    else QFont.default.family
  let font := { f.data with family := fam }
  (font, { f with data := font })

/-- `FontCti._nodeGetNonDefaultsDict`: `{'data': self.data.toString()}`
when the font differs from the default, else the empty dict. -/
def FontCti.nodeGetNonDefaultsDict (f : FontCti) : Option String :=
  if f.data ≠ f.defaultData then some f.data.toDescription else none

/-- `FontCti._nodeSetValuesFromDict`: with a `'data'` entry, run
`QFont().fromString` on it; on failure log a warning and, when
`DEBUGGING`, raise `ValueError`; in every non-raising path assign the
resulting font (the default-constructed one when parsing failed) through
the `data` setter.  Second component: whether a warning was logged. -/
def FontCti.nodeSetValuesFromDict (debugging : Bool) (dct : Option String)
    (f : FontCti) : Except String (FontCti × Bool) :=
  match dct with
  | none => .ok (f, false)
  | some s =>
    if !(QFont.fromDescription QFont.default s).1 && debugging then
      .error ("Unable to create QFont from string " ++ s)
    else
      (f.setData (QFont.fromDescription QFont.default s).2).map fun fw =>
        (fw.1, !(QFont.fromDescription QFont.default s).1 || fw.2)

/-! ## Auxiliary predicates and sample nodes -/

/-- A character of the lowercase `#rrggbb` form: a decimal digit
(codepoints 48-57) or `a`-`f` (codepoints 97-102). -/
def isLowerHexDigit (c : Char) : Bool :=
  (decide (48 ≤ c.toNat) && decide (c.toNat ≤ 57)) ||
  (decide (97 ≤ c.toNat) && decide (c.toNat ≤ 102))

/-- A character of the uppercase `#RRGGBB` form: a decimal digit
(codepoints 48-57) or `A`-`F` (codepoints 65-70). -/
def isUpperHexDigit (c : Char) : Bool :=
  (decide (48 ≤ c.toNat) && decide (c.toNat ≤ 57)) ||
  (decide (65 ≤ c.toNat) && decide (c.toNat ≤ 70))

/-- `s` has the shape `#` followed by six lowercase hex digits. -/
def isLowerHexColorString (s : String) : Bool :=
  match s.toList with
  | '#' :: rest => rest.length == 6 && rest.all isLowerHexDigit
  | _ => false

/-- `s` has the shape `#` followed by six uppercase hex digits
(the `#RRGGBB` form the spec describes). -/
def isUpperHexColorString (s : String) : Bool :=
  match s.toList with
  | '#' :: rest => rest.length == 6 && rest.all isUpperHexDigit
  | _ => false

/-- A sample color node: red with a black default. -/
def sampleColorCti : ColorCti :=
  { nodeName := "color", data := ⟨255, 0, 0⟩, defaultData := ⟨0, 0, 0⟩ }

/-- A sample pen node built by the constructor: enabled, seeded from the
default pen, with the `None` style sentinel included. -/
def samplePenCti : PenCti :=
  PenCti.make "pen" true QPen.default true false

/-- A sample font node: an Arial font over the family list
`["", "Arial", "Courier"]` with Courier selected in the family child. -/
def sampleFontCti : FontCti :=
  { nodeName := "font",
    data := { family := "Arial", pointSize := 12, weight := 75, italic := false },
    defaultData := QFont.default,
    familyCti := { nodeName := "family", data := 2, defaultData := 0,
                   configValues := ["", "Arial", "Courier"] } }

/-! ## Helper lemmas -/

theorem hexDigitVal_hexDigitChar (n : Nat) (h : n < 16) :
    hexDigitVal (hexDigitChar n) = some n := by
  interval_cases n <;> decide

theorem isLowerHexDigit_hexDigitChar (n : Nat) :
    isLowerHexDigit (hexDigitChar n) = true := by
  have hb : min n 15 < 16 := by omega
  unfold hexDigitChar
  generalize hm : min n 15 = m at *
  interval_cases m <;> decide

theorem name_isLowerHexColorString (c : QColor) :
    isLowerHexColorString c.name = true := by
  unfold isLowerHexColorString QColor.name
  simp [String.toList, List.all, isLowerHexDigit_hexDigitChar]

theorem colorFromString_name (c : QColor) (hc : c.valid) :
    colorFromString c.name = some c := by
  obtain ⟨hr, hg, hb⟩ := hc
  have h1 : c.r / 16 < 16 := by omega
  have h2 : c.r % 16 < 16 := by omega
  have h3 : c.g / 16 < 16 := by omega
  have h4 : c.g % 16 < 16 := by omega
  have h5 : c.b / 16 < 16 := by omega
  have h6 : c.b % 16 < 16 := by omega
  unfold colorFromString QColor.name parseHexColor
  simp only [String.toList, hexDigitVal_hexDigitChar, h1, h2, h3, h4, h5, h6,
    Option.bind_some, Option.pure_def, Option.bind_eq_bind]
  have er : c.r / 16 * 16 + c.r % 16 = c.r := by omega
  have eg : c.g / 16 * 16 + c.g % 16 = c.g := by omega
  have eb : c.b / 16 * 16 + c.b % 16 = c.b := by omega
  simp [er, eg, eb]

theorem indexOf?_get? {l : List String} {a : String} {i : Nat}
    (h : l.indexOf? a = some i) : l.get? i = some a := by
  induction l generalizing i with
  | nil => simp at h
  | cons x xs ih =>
    rw [List.indexOf?_cons] at h
    by_cases hx : x = a
    · simp [hx] at h
      subst hx
      simp [← h]
    · have hbeq : (x == a) = false := by simp [hx]
      rw [hbeq] at h
      simp only [Bool.false_eq_true, if_false] at h
      cases hxs : xs.indexOf? a with
      | none => simp [hxs] at h
      | some j =>
        simp [hxs] at h
        subst h
        simpa using ih hxs

theorem indexOf?_isSome_of_mem {l : List String} {a : String} (h : a ∈ l) :
    l.indexOf? a ≠ none := by
  intro hnone
  have := List.indexOf?_eq_none_iff.mp hnone a h
  simp at this

/-! ## Claim theorems: ColorCti -/

/-- C4: for every `ColorCti` node and every string that is not a
recognized color specification, assignment through the type-enforcement
function fails with the invalid-value error; no updated node is produced,
so the prior `data` is unchanged. -/
theorem colorCti_setData_invalid_fails (cti : ColorCti) (s : String)
    (h : colorFromString s = none) :
    cti.setData s = .error ("Invalid color specification: " ++ s) ∧
    ∀ cti' : ColorCti, cti.setData s ≠ .ok cti' := by
  have he : cti.setData s = .error ("Invalid color specification: " ++ s) := by
    simp [ColorCti.setData, ColorCti.enforceDataType, h, Except.map]
  exact ⟨he, fun cti' hok => by rw [he] at hok; exact Except.noConfusion hok⟩

theorem colorCti_setData_invalid_fails_witness :
    colorFromString "notacolor" = none ∧
    (sampleColorCti.setData "notacolor" =
        .error ("Invalid color specification: " ++ "notacolor") ∧
      ∀ cti' : ColorCti, sampleColorCti.setData "notacolor" ≠ .ok cti') :=
  ⟨by decide, colorCti_setData_invalid_fails sampleColorCti "notacolor" (by decide)⟩

/-- C5 counterexample: a red-over-black node emits the lowercase string
`#ff0000`, which is not of the uppercase `#RRGGBB` form the claim
requires. -/
theorem colorCti_persist_not_uppercase :
    sampleColorCti.nodeGetNonDefaultsDict = some "#ff0000" ∧
    isUpperHexColorString "#ff0000" = false := by
  constructor
  · decide
  · decide

/-- C5 (amended): for every `ColorCti` node whose data differs from its
default, the persistence dictionary stores `data.name()`: the canonical
hex string in lowercase with a leading `#` (the display string, by
contrast, is uppercased). -/
theorem colorCti_persist_lowercase_hex (cti : ColorCti)
    (h : cti.data ≠ cti.defaultData) :
    cti.nodeGetNonDefaultsDict = some cti.data.name ∧
    isLowerHexColorString cti.data.name = true ∧
    ColorCti.dataToString cti.data = cti.data.name.toUpper := by
  refine ⟨?_, name_isLowerHexColorString _, rfl⟩
  simp [ColorCti.nodeGetNonDefaultsDict, h]

theorem colorCti_persist_lowercase_hex_witness :
    sampleColorCti.data ≠ sampleColorCti.defaultData ∧
    (sampleColorCti.nodeGetNonDefaultsDict = some sampleColorCti.data.name ∧
      isLowerHexColorString sampleColorCti.data.name = true ∧
      ColorCti.dataToString sampleColorCti.data = sampleColorCti.data.name.toUpper) :=
  ⟨by decide, colorCti_persist_lowercase_hex sampleColorCti (by decide)⟩

/-- C6: every valid color round-trips through persistence: emitting the
node's dictionary and applying it to a fresh node with the same default
yields data equal to the original color. -/
theorem colorCti_roundTrip (c d : QColor) (hc : c.valid) :
    ∃ cti' : ColorCti,
      ColorCti.nodeSetValuesFromDict
          (ColorCti.nodeGetNonDefaultsDict ⟨"color", c, d⟩) ⟨"color", d, d⟩ =
        .ok cti' ∧
      cti'.data = c := by
  by_cases h : c = d
  · subst h
    exact ⟨⟨"color", c, c⟩, by simp [ColorCti.nodeGetNonDefaultsDict,
      ColorCti.nodeSetValuesFromDict], rfl⟩
  · refine ⟨⟨"color", c, d⟩, ?_, rfl⟩
    simp only [ColorCti.nodeGetNonDefaultsDict, ColorCti.nodeSetValuesFromDict]
    rw [if_pos (by simpa using h)]
    simp [ColorCti.setData, ColorCti.enforceDataType, colorFromString_name c hc,
      Except.map]

theorem colorCti_roundTrip_witness :
    QColor.valid ⟨255, 0, 0⟩ ∧
    ∃ cti' : ColorCti,
      ColorCti.nodeSetValuesFromDict
          (ColorCti.nodeGetNonDefaultsDict ⟨"color", ⟨255, 0, 0⟩, ⟨0, 0, 0⟩⟩)
          ⟨"color", ⟨0, 0, 0⟩, ⟨0, 0, 0⟩⟩ =
        .ok cti' ∧
      cti'.data = ⟨255, 0, 0⟩ :=
  ⟨by decide, colorCti_roundTrip ⟨255, 0, 0⟩ ⟨0, 0, 0⟩ (by decide)⟩

/-- C9: a node at its default emits no `'data'` entry, and applying a
dictionary without a `'data'` key leaves any node unchanged. -/
theorem colorCti_nonDefault_persistence (cti : ColorCti)
    (h : cti.data = cti.defaultData) :
    cti.nodeGetNonDefaultsDict = none ∧
    ∀ c2 : ColorCti, ColorCti.nodeSetValuesFromDict none c2 = .ok c2 := by
  exact ⟨by simp [ColorCti.nodeGetNonDefaultsDict, h], fun c2 => rfl⟩

theorem colorCti_nonDefault_persistence_witness :
    (⟨"color", ⟨0, 0, 0⟩, ⟨0, 0, 0⟩⟩ : ColorCti).data =
      (⟨"color", ⟨0, 0, 0⟩, ⟨0, 0, 0⟩⟩ : ColorCti).defaultData ∧
    ((⟨"color", ⟨0, 0, 0⟩, ⟨0, 0, 0⟩⟩ : ColorCti).nodeGetNonDefaultsDict = none ∧
      ∀ c2 : ColorCti, ColorCti.nodeSetValuesFromDict none c2 = .ok c2) :=
  ⟨rfl, colorCti_nonDefault_persistence ⟨"color", ⟨0, 0, 0⟩, ⟨0, 0, 0⟩⟩ rfl⟩

/-! ## Claim theorems: PenCti -/

/-- When the enabled flag is set, `configValue` assembles the children's
values onto a default pen made cosmetic. -/
theorem penCti_configValue_enabled (p : PenCti) (h : p.data = true) :
    p.configValue = some
      { cosmetic := true, color := p.colorCti.data,
        style := match p.styleCti.configValue with
                 | some s => s
                 | none => QPen.default.style,
        width := p.widthCti.configValue } := by
  unfold PenCti.configValue
  rw [h]
  cases hs : p.styleCti.configValue <;> simp [hs, QPen.default]

/-- C1: `configValue` is `None` whenever the enabled flag is false,
regardless of the children's values; when it is true it is a pen that is
always cosmetic, whose color and width come from the color and width
children and whose style comes from the style child unless that child
resolves to the `None` sentinel (the default solid style is then kept). -/
theorem penCti_configValue_spec (p : PenCti) (_hwf : p.WF) :
    (p.data = false → p.configValue = none) ∧
    (p.data = true → ∃ pen : QPen, p.configValue = some pen ∧
      pen.cosmetic = true ∧
      pen.color = p.colorCti.data ∧
      pen.width = p.widthCti.configValue ∧
      (∀ s, p.styleCti.configValue = some s → pen.style = s) ∧
      (p.styleCti.configValue = none → pen.style = QPen.default.style)) := by
  constructor
  · intro h
    unfold PenCti.configValue
    rw [h]
    rfl
  · intro h
    refine ⟨_, penCti_configValue_enabled p h, rfl, rfl, rfl, ?_, ?_⟩
    · intro s hs
      simp only [hs]
    · intro hs
      simp only [hs]

theorem penCti_configValue_spec_witness :
    samplePenCti.WF ∧
    ((samplePenCti.data = false → samplePenCti.configValue = none) ∧
      (samplePenCti.data = true → ∃ pen : QPen,
        samplePenCti.configValue = some pen ∧
        pen.cosmetic = true ∧
        pen.color = samplePenCti.colorCti.data ∧
        pen.width = samplePenCti.widthCti.configValue ∧
        (∀ s, samplePenCti.styleCti.configValue = some s → pen.style = s) ∧
        (samplePenCti.styleCti.configValue = none →
          pen.style = QPen.default.style))) :=
  ⟨by decide, penCti_configValue_spec samplePenCti (by decide)⟩

/-- When the enabled flag is set, `createPen(altStyle=X, altWidth=W)`
substitutes `X` exactly at the `None` style sentinel and `W` exactly at
width 0. -/
theorem penCti_createPen_eq (p : PenCti) (X : PenStyle) (W : ℚ)
    (hen : p.data = true) :
    p.createPen (some X) (some W) = some
      { cosmetic := true, color := p.colorCti.data,
        style := match p.styleCti.configValue with
                 | some s => s
                 | none => X,
        width := if p.widthCti.configValue = 0 then W
                 else p.widthCti.configValue } := by
  have hcv := penCti_configValue_enabled p hen
  unfold PenCti.createPen
  rw [hcv]
  cases hs : p.styleCti.configValue <;> by_cases hw : p.widthCti.configValue = 0 <;>
    simp [hs, hw]

/-- C2: for an enabled node, `createPen(altStyle=X, altWidth=W)` yields a
pen whose style is `X` exactly when the style child resolves to the `None`
sentinel, whose width is `W` exactly when the width child's value is 0.0,
and which otherwise carries the configured style and width. -/
theorem penCti_createPen_spec (p : PenCti) (X : PenStyle) (W : ℚ)
    (_hwf : p.WF) (hen : p.data = true) :
    ∃ pen : QPen, p.createPen (some X) (some W) = some pen ∧
      (p.styleCti.configValue = none → pen.style = X) ∧
      (∀ s, p.styleCti.configValue = some s → pen.style = s) ∧
      (p.widthCti.configValue = 0 → pen.width = W) ∧
      (p.widthCti.configValue ≠ 0 → pen.width = p.widthCti.configValue) := by
  refine ⟨_, penCti_createPen_eq p X W hen, ?_, ?_, ?_, ?_⟩
  · intro hnone
    simp [hnone]
  · intro s hsome
    simp [hsome]
  · intro h0
    simp [h0]
  · intro hne
    simp [hne]

theorem penCti_createPen_spec_witness :
    samplePenCti.WF ∧ samplePenCti.data = true ∧
    ∃ pen : QPen,
      samplePenCti.createPen (some PenStyle.DashLine) (some 2) = some pen ∧
      (samplePenCti.styleCti.configValue = none → pen.style = .DashLine) ∧
      (∀ s, samplePenCti.styleCti.configValue = some s → pen.style = s) ∧
      (samplePenCti.widthCti.configValue = 0 → pen.width = 2) ∧
      (samplePenCti.widthCti.configValue ≠ 0 →
        pen.width = samplePenCti.widthCti.configValue) :=
  ⟨by decide, rfl,
    penCti_createPen_spec samplePenCti PenStyle.DashLine 2 (by decide) rfl⟩

/-- C10: `createPenWidthCti` sets the width bounds: minimum 0.1 without a
zero-value text and 0.0 with one; maximum 100 and step size 0.1 in both
cases (the zero-value text becomes the special value label). -/
theorem createPenWidthCti_spec (n : String) (d : ℚ) (zvt : Option String) :
    ((createPenWidthCti n d zvt).minValue = if zvt = none then 1/10 else 0) ∧
    (createPenWidthCti n d zvt).maxValue = 100 ∧
    (createPenWidthCti n d zvt).stepSize = 1/10 ∧
    (createPenWidthCti n d zvt).specialValueText = zvt :=
  ⟨rfl, rfl, rfl, rfl⟩

/-! ## Claim theorems: FontCti -/

/-- Characterization of the `data` setter on a well-formed node: it always
succeeds, stores the font, keeps the option list and default, and selects
either the exact family match or (with a warning) the empty choice. -/
theorem fontCti_setData_ok (f : FontCti) (font : QFont) (hwf : f.WF) :
    ∃ f1 w, f.setData font = .ok (f1, w) ∧
      f1.data = font ∧
      f1.defaultData = f.defaultData ∧
      f1.familyCti.configValues = f.familyCti.configValues ∧
      (∀ i, f.familyCti.configValues.indexOf? font.family = some i →
        f1.familyCti.data = i ∧ w = false) ∧
      (f.familyCti.configValues.indexOf? font.family = none →
        w = true ∧
        f.familyCti.configValues.indexOf? "" = some f1.familyCti.data) := by
  unfold FontCti.setData
  cases h1 : f.familyCti.configValues.indexOf? font.family with
  | some idx =>
    refine ⟨_, false, rfl, rfl, rfl, rfl, ?_, ?_⟩
    · intro i hi
      cases hi
      exact ⟨rfl, rfl⟩
    · intro hnone
      exact Option.noConfusion hnone
  | none =>
    cases h2 : f.familyCti.configValues.indexOf? "" with
    | some idx =>
      refine ⟨_, true, rfl, rfl, rfl, rfl, ?_, fun _ => ⟨rfl, rfl⟩⟩
      intro i hi
      cases hi
    | none => exact absurd h2 (indexOf?_isSome_of_mem hwf)

/-- Characterization of the `defaultData` setter on a well-formed node;
mirrors `fontCti_setData_ok`. -/
theorem fontCti_setDefaultData_ok (f : FontCti) (font : QFont) (hwf : f.WF) :
    ∃ f1 w, f.setDefaultData font = .ok (f1, w) ∧
      f1.defaultData = font ∧
      f1.data = f.data ∧
      f1.familyCti.configValues = f.familyCti.configValues ∧
      (∀ i, f.familyCti.configValues.indexOf? font.family = some i →
        f1.familyCti.defaultData = i ∧ w = false) ∧
      (f.familyCti.configValues.indexOf? font.family = none →
        w = true ∧
        f.familyCti.configValues.indexOf? "" = some f1.familyCti.defaultData) := by
  unfold FontCti.setDefaultData
  cases h1 : f.familyCti.configValues.indexOf? font.family with
  | some idx =>
    refine ⟨_, false, rfl, rfl, rfl, rfl, ?_, ?_⟩
    · intro i hi
      cases hi
      exact ⟨rfl, rfl⟩
    · intro hnone
      exact Option.noConfusion hnone
  | none =>
    cases h2 : f.familyCti.configValues.indexOf? "" with
    | some idx =>
      refine ⟨_, true, rfl, rfl, rfl, rfl, ?_, fun _ => ⟨rfl, rfl⟩⟩
      intro i hi
      cases hi
    | none => exact absurd h2 (indexOf?_isSome_of_mem hwf)

/-- C7: on a well-formed `FontCti` node (the empty choice is in the family
option list, as construction ensures), setting `data` — and likewise
`defaultData` — to any font never fails: a family present in the option
list selects that family's index, and an absent family logs a warning and
selects the empty-choice option. -/
theorem fontCti_setters_never_raise (f : FontCti) (font : QFont)
    (hwf : f.WF) :
    (∃ f1 w, f.setData font = .ok (f1, w) ∧ f1.data = font ∧
      (∀ i, f.familyCti.configValues.indexOf? font.family = some i →
        f1.familyCti.data = i ∧ w = false) ∧
      (f.familyCti.configValues.indexOf? font.family = none →
        w = true ∧
        f1.familyCti.configValues.get? f1.familyCti.data = some "")) ∧
    (∃ f2 w2, f.setDefaultData font = .ok (f2, w2) ∧ f2.defaultData = font ∧
      (∀ i, f.familyCti.configValues.indexOf? font.family = some i →
        f2.familyCti.defaultData = i ∧ w2 = false) ∧
      (f.familyCti.configValues.indexOf? font.family = none →
        w2 = true ∧
        f2.familyCti.configValues.get? f2.familyCti.defaultData = some "")) := by
  constructor
  · obtain ⟨f1, w, hok, hdata, _, hcfg, hfound, hmiss⟩ :=
      fontCti_setData_ok f font hwf
    refine ⟨f1, w, hok, hdata, hfound, ?_⟩
    intro hnone
    obtain ⟨hw, hidx⟩ := hmiss hnone
    exact ⟨hw, by rw [hcfg]; exact indexOf?_get? hidx⟩
  · obtain ⟨f2, w2, hok, hdefault, _, hcfg, hfound, hmiss⟩ :=
      fontCti_setDefaultData_ok f font hwf
    refine ⟨f2, w2, hok, hdefault, hfound, ?_⟩
    intro hnone
    obtain ⟨hw, hidx⟩ := hmiss hnone
    exact ⟨hw, by rw [hcfg]; exact indexOf?_get? hidx⟩

theorem fontCti_setters_never_raise_witness :
    sampleFontCti.WF ∧
    ((∃ f1 w, sampleFontCti.setData QFont.default = .ok (f1, w) ∧
        f1.data = QFont.default ∧
        (∀ i, sampleFontCti.familyCti.configValues.indexOf?
            QFont.default.family = some i →
          f1.familyCti.data = i ∧ w = false) ∧
        (sampleFontCti.familyCti.configValues.indexOf?
            QFont.default.family = none →
          w = true ∧
          f1.familyCti.configValues.get? f1.familyCti.data = some "")) ∧
      (∃ f2 w2, sampleFontCti.setDefaultData QFont.default = .ok (f2, w2) ∧
        f2.defaultData = QFont.default ∧
        (∀ i, sampleFontCti.familyCti.configValues.indexOf?
            QFont.default.family = some i →
          f2.familyCti.defaultData = i ∧ w2 = false) ∧
        (sampleFontCti.familyCti.configValues.indexOf?
            QFont.default.family = none →
          w2 = true ∧
          f2.familyCti.configValues.get? f2.familyCti.defaultData = some ""))) :=
  ⟨by decide, fontCti_setters_never_raise sampleFontCti QFont.default (by decide)⟩

/-- C8 counterexample: on a node whose family child selects `Courier`
while the stored font's family is `Arial`, the target-sync operation
changes the node's own stored data (the aliased font is mutated in place),
contradicting the claim that it is left unchanged. -/
theorem fontCti_updateTarget_mutates :
    sampleFontCti.data.family = "Arial" ∧
    (sampleFontCti.updateTargetFromNode).2.data.family = "Courier" ∧
    (sampleFontCti.updateTargetFromNode).2.data ≠ sampleFontCti.data := by
  refine ⟨rfl, rfl, ?_⟩
  decide

/-- C8 (amended): the target-sync operation pushes to the target a font
equal to the node's data with only the family replaced by the family
child's selection (or the environment default family when that choice is
empty); the pushed font is the node's own stored font mutated in place, so
after the call the node's data equals the pushed font, while the default
data and the family child are untouched. -/
theorem fontCti_updateTarget_spec (f : FontCti) :
    (f.updateTargetFromNode).1 =
      { f.data with
        family := if f.familyCti.configValue ≠ "" then f.familyCti.configValue
                  else QFont.default.family } ∧
    (f.updateTargetFromNode).2.data = (f.updateTargetFromNode).1 ∧
    (f.updateTargetFromNode).2.defaultData = f.defaultData ∧
    (f.updateTargetFromNode).2.familyCti = f.familyCti := by
  unfold FontCti.updateTargetFromNode
  by_cases h : f.familyCti.configValue = "" <;> simp [h]

/-- C3 helper: a failed `QFont.fromString` leaves the parsed-into font at
its starting value. -/
theorem fromDescription_failure_keeps (start : QFont) (s : String)
    (h : (QFont.fromDescription start s).1 = false) :
    (QFont.fromDescription start s).2 = start := by
  unfold QFont.fromDescription at h ⊢
  split at h
  · simp at h
  · split at h
    · simp at h
    · simp at h
    · rfl
  · rfl

/-- C3 counterexample: deserializing an unparsable font string with debug
mode off replaces the node's previous data (an Arial font) with the
default-constructed font instead of retaining it. -/
theorem fontCti_fromDict_counterexample :
    FontCti.nodeSetValuesFromDict false (some "garbage;string") sampleFontCti =
      .ok ({ sampleFontCti with
             data := QFont.default,
             familyCti := { sampleFontCti.familyCti with data := 0 } }, true) ∧
    QFont.default ≠ sampleFontCti.data := by
  exact ⟨rfl, by decide⟩

/-- C3 (amended): for every well-formed `FontValue` node, applying
`setValuesFromDict` with a `'data'` string that cannot be parsed as a font
fails with the invalid-value error when debug mode is on; when debug mode
is off it logs a warning and sets the node's data to the
default-constructed font the failed parse left behind — the previous value
is not retained. -/
theorem fontCti_fromDict_parse_failure (f : FontCti) (s : String)
    (hwf : f.WF) (hfail : (QFont.fromDescription QFont.default s).1 = false) :
    FontCti.nodeSetValuesFromDict true (some s) f =
      .error ("Unable to create QFont from string " ++ s) ∧
    ∃ f1, FontCti.nodeSetValuesFromDict false (some s) f = .ok (f1, true) ∧
      f1.data = QFont.default := by
  have hkeep := fromDescription_failure_keeps QFont.default s hfail
  constructor
  · simp [FontCti.nodeSetValuesFromDict, hfail]
  · obtain ⟨f1, w, hok, hdata, _, _, _, _⟩ :=
      fontCti_setData_ok f (QFont.fromDescription QFont.default s).2 hwf
    refine ⟨f1, ?_, by rw [hdata, hkeep]⟩
    simp [FontCti.nodeSetValuesFromDict, hfail, hok, Except.map]

theorem fontCti_fromDict_parse_failure_witness :
    sampleFontCti.WF ∧
    (QFont.fromDescription QFont.default "garbage;string").1 = false ∧
    (FontCti.nodeSetValuesFromDict true (some "garbage;string") sampleFontCti =
        .error ("Unable to create QFont from string " ++ "garbage;string") ∧
      ∃ f1, FontCti.nodeSetValuesFromDict false (some "garbage;string")
          sampleFontCti = .ok (f1, true) ∧
        f1.data = QFont.default) :=
  ⟨by decide, by decide,
    fontCti_fromDict_parse_failure sampleFontCti "garbage;string"
      (by decide) (by decide)⟩

end Argos
